import Mathlib

/-!
Verification of the service-locator program (`src/app.py`).

The program loads a CSV file `services.csv` through `csv.DictReader` into a
Python dict mapping each `service_name` to `{"host": ..., "port": int(...)}`,
then serves `GET /service/<service_name>` returning the record as JSON with
status 200, or `{"error": "Service not found"}` with status 404.

We embed the program shallowly:
* a CSV source is a list of records (each a list of field strings); a missing
  file is the `none` case of an `Option`;
* the dict view that `csv.DictReader` gives of a row (`row["col"]`) is
  `rowDict`: keys are the header's field names, a repeated field name keeps its
  last occurrence, and a row shorter than the header pads with `None`
  (modelled as the inner `Option`);
* Python's `int(·)` on a string is `pyIntOfString?` (sign, digits, single
  underscores between digits, surrounding whitespace); on `None` it raises
  `TypeError`;
* the services dict is an association list with Python's insertion semantics
  (`dinsert`: overwrite in place, otherwise append) and `dict.get` is `dget`;
* exceptions are the `Except` error case: `KeyError` from a missing column,
  `ValueError` from a failed conversion, `TypeError` from `int(None)`; only
  `FileNotFoundError` (the `none` source) is caught by `load_services`.
-/

set_option autoImplicit false

namespace ServiceLocator

/-- A Python dict key as it occurs in `services`: `row["service_name"]` can be
the string of the row's field, or Python `None` when the row is shorter than
the header (`csv.DictReader`'s `restval`). -/
abbrev PyKey := Option String

/-- The value `{"host": row["host"], "port": int(row["port"])}` stored for one
service.  `host` is `none` when `row["host"]` was the `None` padding value. -/
structure Service where
  host : Option String
  port : Int
deriving DecidableEq

/-- The `services` dict: an association list in insertion order with unique
keys, as maintained by `dinsert`. -/
abbrev Table := List (PyKey × Service)

/-- The Python exceptions that can escape `load_services`'s loop body. -/
inductive PyErr where
  /-- `row[c]` with column `c` absent from the header. -/
  | keyError
  /-- `int(s)` on a string that does not parse as an integer. -/
  | valueError
  /-- `int(None)` on the `restval` padding of a short row. -/
  | typeError
deriving DecidableEq

/-- Python dict insertion `d[k] = v`: an existing key is overwritten in place,
a new key is appended. -/
def dinsert (d : Table) (k : PyKey) (v : Service) : Table :=
  match d with
  | [] => [(k, v)]
  | (k', v') :: rest => if k' = k then (k, v) :: rest else (k', v') :: dinsert rest k v

/-- Python `d.get(k)`: the value stored at `k`, or `None`. -/
def dget (d : Table) (k : PyKey) : Option Service :=
  match d with
  | [] => none
  | (k', v') :: rest => if k' = k then some v' else dget rest k

/-- Index of the last occurrence of `k` in `l`, if any.  The last occurrence
is what survives in the dict `csv.DictReader` builds from a row (later
`zip`/`restval` assignments overwrite earlier ones). -/
def lastIdxOf (l : List String) (k : String) : Option Nat :=
  match l with
  | [] => none
  | a :: rest =>
    match lastIdxOf rest k with
    | some i => some (i + 1)
    | none => if a = k then some 0 else none

/-- The dict `csv.DictReader` yields for one data row, applied to a key:
`none` means the key is absent (so `row[k]` raises `KeyError`); `some none`
means the key maps to the `None` padding (row shorter than the header);
`some (some s)` means the key maps to field `s`. -/
def rowDict (fieldnames : List String) (row : List String) (k : String) :
    Option (Option String) :=
  (lastIdxOf fieldnames k).map (fun i => row.get? i)

/-- Accumulate digits, allowing a single underscore between two digits, as
Python's `int` does. -/
def digitsCore (acc : Nat) : List Char → Option Nat
  | [] => some acc
  | c :: cs =>
    if c.isDigit then digitsCore (acc * 10 + (c.toNat - 48)) cs
    else if c = '_' then
      match cs with
      | c2 :: cs2 =>
        if c2.isDigit then digitsCore (acc * 10 + (c2.toNat - 48)) cs2 else none
      | [] => none
    else none

/-- ASCII whitespace stripped by Python's `int` before parsing. -/
def isPyWhitespace (c : Char) : Bool :=
  c = ' ' || c = '\t' || c = '\n' || c = '\r' || c = '\x0b' || c = '\x0c'

/-- Strip leading and trailing whitespace from a character list. -/
def trimChars (cs : List Char) : List Char :=
  ((cs.dropWhile isPyWhitespace).reverse.dropWhile isPyWhitespace).reverse

/-- Python `int(s)` for a string `s`: optional surrounding whitespace, an
optional sign, then a non-empty digit sequence (underscores allowed between
digits).  `none` models the `ValueError` raise. -/
def pyIntOfString? (s : String) : Option Int :=
  match trimChars s.toList with
  | [] => none
  | '-' :: c :: rest =>
    if c.isDigit then (digitsCore (c.toNat - 48) rest).map (fun n => -(n : Int)) else none
  | '+' :: c :: rest =>
    if c.isDigit then (digitsCore (c.toNat - 48) rest).map (fun n => (n : Int)) else none
  | c :: rest =>
    if c.isDigit then (digitsCore (c.toNat - 48) rest).map (fun n => (n : Int)) else none

/-- `int(row["port"])` where the argument is a dict value (a field string or
the `None` padding): `TypeError` on `None`, `ValueError` on a non-integer
string. -/
def pyInt (v : Option String) : Except PyErr Int :=
  match v with
  | none => .error .typeError
  | some s =>
    match pyIntOfString? s with
    | none => .error .valueError
    | some n => .ok n

/-- The body of the `for row in reader` loop:
`service_name = row["service_name"]`, then
`services[service_name] = {"host": row["host"], "port": int(row["port"])}`,
in Python's evaluation order; an exception is propagated. -/
def processRow (fieldnames row : List String) (services : Table) :
    Except PyErr Table :=
  match rowDict fieldnames row "service_name" with
  | none => .error .keyError
  | some nameV =>
    match rowDict fieldnames row "host" with
    | none => .error .keyError
    | some hostV =>
      match rowDict fieldnames row "port" with
      | none => .error .keyError
      | some portV =>
        match pyInt portV with
        | .error e => .error e
        | .ok port => .ok (dinsert services nameV ⟨hostV, port⟩)

/-- The `for row in reader` loop of `load_services`: `csv.DictReader` skips
blank records; each other record is handled by `processRow`; an uncaught
exception aborts the loop. -/
def loadRows (fieldnames : List String) :
    List (List String) → Table → Except PyErr Table
  | [], services => .ok services
  | row :: rest, services =>
    if row = [] then loadRows fieldnames rest services
    else
      match processRow fieldnames row services with
      | .error e => .error e
      | .ok services' => loadRows fieldnames rest services'

/-- `load_services()`.  The source file is `none` when opening raises
`FileNotFoundError` (caught: the function prints and returns the empty dict);
otherwise it is the list of CSV records, whose first record is the header
`csv.DictReader` uses as field names (an empty file has no header and yields
no rows). -/
def load_services (file : Option (List (List String))) : Except PyErr Table :=
  match file with
  | none => .ok []
  | some [] => .ok []
  | some (header :: rows) => loadRows header rows []

/-- What `load_services()` prints: the diagnostic of the `FileNotFoundError`
handler, and nothing otherwise. -/
def load_services_prints (file : Option (List (List String))) : List String :=
  match file with
  | none => ["Error: CSV file 'services.csv' not found."]
  | some _ => []

/-- A JSON value as produced by `jsonify`. -/
inductive JVal where
  | str (s : String)
  | int (n : Int)
  | null
deriving DecidableEq

/-- A JSON object body paired with the HTTP status code. -/
abbrev HttpResponse := Nat × List (String × JVal)

/-- `jsonify`'s rendering of a stored host value (`None` becomes JSON null). -/
def jOfHost (h : Option String) : JVal :=
  match h with
  | none => .null
  | some s => .str s

/-- `get_service(service_name)`: `SERVICES.get(service_name)`; a found record
(a two-entry dict, hence truthy) is returned as JSON with the default status
200; otherwise `{"error": "Service not found"}` with status 404. -/
def get_service (services : Table) (service_name : String) : HttpResponse :=
  match dget services (some service_name) with
  | some svc => (200, [("host", jOfHost svc.host), ("port", .int svc.port)])
  | none => (404, [("error", .str "Service not found")])

/-- One request handled against the server state: `get_service` only reads
`SERVICES`, so the state it passes on is the state it received. -/
def get_service_step (services : Table) (service_name : String) :
    HttpResponse × Table :=
  (get_service services service_name, services)

/-- A sequence of requests handled in order, threading the server state. -/
def handleRequests (services : Table) :
    List String → List HttpResponse × Table
  | [] => ([], services)
  | n :: rest =>
    let (resp, s') := get_service_step services n
    let (resps, s'') := handleRequests s' rest
    (resp :: resps, s'')

/-- The record-validity predicate of the specification's data model: non-empty
name, non-empty host, port in [0, 65535]. -/
def recordValid (k : PyKey) (svc : Service) : Prop :=
  (∃ n, k = some n ∧ n ≠ "") ∧ (∃ h, svc.host = some h ∧ h ≠ "") ∧
    0 ≤ svc.port ∧ svc.port ≤ 65535

/-- Boolean form of `recordValid`, for evaluation. -/
def recordValidB (k : PyKey) (svc : Service) : Bool :=
  (match k with | some n => n ≠ "" | none => false) &&
  (match svc.host with | some h => h ≠ "" | none => false) &&
  (0 ≤ svc.port && svc.port ≤ 65535)

instance (k : PyKey) (svc : Service) : Decidable (recordValid k svc) :=
  decidable_of_iff (recordValidB k svc = true) (by
    obtain ⟨h, p⟩ := svc
    cases k <;> cases h <;>
      simp [recordValidB, recordValid, and_assoc])

instance {ε α : Type} [DecidableEq ε] [DecidableEq α] : DecidableEq (Except ε α) := fun a b =>
  match a, b with
  | .ok x, .ok y => decidable_of_iff (x = y) (by simp)
  | .error x, .error y => decidable_of_iff (x = y) (by simp)
  | .ok _, .error _ => .isFalse (by simp)
  | .error _, .ok _ => .isFalse (by simp)

theorem dget_dinsert_self (d : Table) (k : PyKey) (v : Service) :
    dget (dinsert d k v) k = some v := by
  induction d with
  | nil => simp [dinsert, dget]
  | cons hd tl ih =>
    obtain ⟨k', v'⟩ := hd
    by_cases h : k' = k
    · simp [dinsert, dget, h]
    · simp [dinsert, dget, h, ih]

theorem dget_dinsert_ne (d : Table) (k' k : PyKey) (v : Service) (h : k' ≠ k) :
    dget (dinsert d k' v) k = dget d k := by
  induction d with
  | nil => simp [dinsert, dget, h]
  | cons hd tl ih =>
    obtain ⟨k₀, v₀⟩ := hd
    by_cases h₀ : k₀ = k'
    · subst h₀
      simp [dinsert, dget, h]
    · simp [dinsert, dget, h₀, ih]

theorem mem_dinsert {d : Table} {k : PyKey} {v : Service} {e : PyKey × Service} :
    e ∈ dinsert d k v → e = (k, v) ∨ e ∈ d := by
  induction d with
  | nil => intro h; simpa [dinsert] using h
  | cons hd tl ih =>
    intro h
    obtain ⟨k₀, v₀⟩ := hd
    by_cases h₀ : k₀ = k
    · simp only [dinsert, if_pos h₀, List.mem_cons] at h
      rcases h with h | h
      · exact .inl h
      · exact .inr (List.mem_cons_of_mem _ h)
    · simp only [dinsert, if_neg h₀, List.mem_cons] at h
      rcases h with h | h
      · exact .inr (by simp [h])
      · rcases ih h with h | h
        · exact .inl h
        · exact .inr (List.mem_cons_of_mem _ h)

theorem mem_keys_dinsert {d : Table} {k a : PyKey} {v : Service} :
    a ∈ (dinsert d k v).map Prod.fst ↔ a = k ∨ a ∈ d.map Prod.fst := by
  induction d with
  | nil => simp [dinsert]
  | cons hd tl ih =>
    obtain ⟨k₀, v₀⟩ := hd
    by_cases h₀ : k₀ = k
    · subst h₀
      simp [dinsert]
    · simp only [dinsert, if_neg h₀, List.map_cons, List.mem_cons, ih]
      tauto

theorem nodup_keys_dinsert {d : Table} {k : PyKey} {v : Service} :
    (d.map Prod.fst).Nodup → ((dinsert d k v).map Prod.fst).Nodup := by
  induction d with
  | nil => intro _; simp [dinsert]
  | cons hd tl ih =>
    intro h
    obtain ⟨k₀, v₀⟩ := hd
    simp only [List.map_cons, List.nodup_cons] at h
    by_cases h₀ : k₀ = k
    · simp only [dinsert, if_pos h₀, List.map_cons, List.nodup_cons]
      exact ⟨h₀ ▸ h.1, h.2⟩
    · simp only [dinsert, if_neg h₀, List.map_cons, List.nodup_cons]
      refine ⟨fun hc => ?_, ih h.2⟩
      rcases mem_keys_dinsert.1 hc with hc | hc
      · exact h₀ hc
      · exact h.1 hc

theorem processRow_ok {fn row : List String} {services t : Table} :
    processRow fn row services = .ok t →
    ∃ nameV hostV portV port,
      rowDict fn row "service_name" = some nameV ∧
      rowDict fn row "host" = some hostV ∧
      rowDict fn row "port" = some portV ∧
      pyInt portV = .ok port ∧
      t = dinsert services nameV ⟨hostV, port⟩ := by
  intro h
  rcases hn : rowDict fn row "service_name" with _ | nameV <;>
    simp only [processRow, hn] at h
  · cases h
  · rcases hh : rowDict fn row "host" with _ | hostV <;> simp only [hh] at h
    · cases h
    · rcases hp : rowDict fn row "port" with _ | portV <;> simp only [hp] at h
      · cases h
      · rcases hi : pyInt portV with e | port <;> simp only [hi] at h
        · cases h
        · exact ⟨nameV, hostV, portV, port, rfl, rfl, rfl, hi, (Except.ok.inj h).symm⟩

theorem processRow_eq_ok {fn row : List String} {services : Table}
    {nameV hostV portV : Option String} {port : Int}
    (hn : rowDict fn row "service_name" = some nameV)
    (hh : rowDict fn row "host" = some hostV)
    (hp : rowDict fn row "port" = some portV)
    (hi : pyInt portV = .ok port) :
    processRow fn row services = .ok (dinsert services nameV ⟨hostV, port⟩) := by
  simp only [processRow, hn, hh, hp, hi]

theorem loadRows_append (fn : List String) (xs : List (List String)) :
    ∀ (ys : List (List String)) (acc : Table),
      loadRows fn (xs ++ ys) acc =
        match loadRows fn xs acc with
        | .ok t => loadRows fn ys t
        | .error e => .error e := by
  induction xs with
  | nil => intro ys acc; rfl
  | cons row rest ih =>
    intro ys acc
    by_cases hrow : row = []
    · simp only [List.cons_append, loadRows, if_pos hrow]
      exact ih ys acc
    · simp only [List.cons_append, loadRows, if_neg hrow]
      rcases hpr : processRow fn row acc with e | services'
      · rfl
      · exact ih ys services'

theorem loadRows_frame (fn : List String) (rows : List (List String)) :
    ∀ (acc table : Table) (k : PyKey),
      (∀ r ∈ rows, rowDict fn r "service_name" ≠ some k) →
      loadRows fn rows acc = .ok table → dget table k = dget acc k := by
  induction rows with
  | nil =>
    intro acc table k _ h
    cases h
    rfl
  | cons row rest ih =>
    intro acc table k hk h
    by_cases hrow : row = []
    · simp only [loadRows, if_pos hrow] at h
      exact ih acc table k (fun r hr => hk r (List.mem_cons_of_mem _ hr)) h
    · simp only [loadRows, if_neg hrow] at h
      split at h
      · cases h
      · rename_i services' hpr
        obtain ⟨nameV, hostV, portV, port, hn, _, _, _, hsv⟩ := processRow_ok hpr
        have hne : nameV ≠ k := by
          intro hkk
          exact hk row (List.mem_cons_self _ _) (by rw [hn, hkk])
        rw [ih services' table k (fun r hr => hk r (List.mem_cons_of_mem _ hr)) h,
          hsv, dget_dinsert_ne _ _ _ _ hne]

theorem rowDict_nil_ne (fn : List String) (k : String) (s : String) :
    rowDict fn [] k ≠ some (some s) := by
  rcases h : lastIdxOf fn k with _ | i <;> simp [rowDict, h]

theorem loadRows_keys_nodup (fn : List String) (rows : List (List String)) :
    ∀ (acc table : Table), loadRows fn rows acc = .ok table →
      (acc.map Prod.fst).Nodup → (table.map Prod.fst).Nodup := by
  induction rows with
  | nil =>
    intro acc table h hacc
    cases h
    exact hacc
  | cons row rest ih =>
    intro acc table h hacc
    by_cases hrow : row = []
    · simp only [loadRows, if_pos hrow] at h
      exact ih acc table h hacc
    · simp only [loadRows, if_neg hrow] at h
      split at h
      · cases h
      · rename_i services' hpr
        obtain ⟨nameV, hostV, portV, port, _, _, _, _, hsv⟩ := processRow_ok hpr
        exact ih services' table h (hsv ▸ nodup_keys_dinsert hacc)

theorem lastIdxOf_eq_none_iff (l : List String) (k : String) :
    lastIdxOf l k = none ↔ k ∉ l := by
  induction l with
  | nil => simp [lastIdxOf]
  | cons a rest ih =>
    rcases h : lastIdxOf rest k with _ | i
    · constructor
      · intro h0 hmem
        rw [lastIdxOf, h] at h0
        rcases List.mem_cons.1 hmem with hmem | hmem
        · rw [if_pos hmem.symm] at h0; cases h0
        · exact (ih.1 h) hmem
      · intro h0
        rw [lastIdxOf, h,
          if_neg (fun ha => h0 (by rw [← ha]; exact List.mem_cons_self a rest))]
    · have hmem : k ∈ rest := by
        by_contra hc
        rw [ih.2 hc] at h; cases h
      constructor
      · intro h0
        rw [lastIdxOf, h] at h0
        cases h0
      · intro h0
        exact ((h0 (List.mem_cons_of_mem a hmem)).elim)

theorem rowDict_eq_none_iff (fn row : List String) (k : String) :
    rowDict fn row k = none ↔ k ∉ fn := by
  rw [← lastIdxOf_eq_none_iff]
  rcases h : lastIdxOf fn k with _ | i <;> simp [rowDict, h]

theorem loadRows_provenance (fn : List String) (rows : List (List String)) :
    ∀ (acc table : Table), loadRows fn rows acc = .ok table →
      ∀ (k : PyKey) (svc : Service), (k, svc) ∈ table →
      (k, svc) ∈ acc ∨
        ∃ row ∈ rows, row ≠ [] ∧ rowDict fn row "service_name" = some k ∧
          rowDict fn row "host" = some svc.host ∧
          ∃ pv, rowDict fn row "port" = some pv ∧ pyInt pv = .ok svc.port := by
  induction rows with
  | nil =>
    intro acc table h k svc hmem
    cases h
    exact .inl hmem
  | cons row rest ih =>
    intro acc table h k svc hmem
    by_cases hrow : row = []
    · simp only [loadRows, if_pos hrow] at h
      rcases ih acc table h k svc hmem with hl | ⟨r, hr, hne, hrest⟩
      · exact .inl hl
      · exact .inr ⟨r, List.mem_cons_of_mem _ hr, hne, hrest⟩
    · simp only [loadRows, if_neg hrow] at h
      split at h
      · cases h
      · rename_i services' hpr
        obtain ⟨nameV, hostV, portV, port, hn, hh, hp, hi, hsv⟩ := processRow_ok hpr
        rcases ih services' table h k svc hmem with hl | ⟨r, hr, hne, hrest⟩
        · rw [hsv] at hl
          rcases mem_dinsert hl with he | he
          · have hk : k = nameV := congrArg Prod.fst he
            have hv : svc = (⟨hostV, port⟩ : Service) := congrArg Prod.snd he
            refine .inr ⟨row, List.mem_cons_self _ _, hrow, hk ▸ hn, ?_, portV, hp, ?_⟩
            · rw [hv]; exact hh
            · rw [hv]; exact hi
          · exact .inl he
        · exact .inr ⟨r, List.mem_cons_of_mem _ hr, hne, hrest⟩

theorem load_last_match
    (header : List String) (pre post : List (List String)) (row : List String)
    (table : Table) (nameV hostV portV : Option String) (port : Int)
    (hload : loadRows header (pre ++ row :: post) [] = .ok table)
    (hn : rowDict header row "service_name" = some nameV)
    (hh : rowDict header row "host" = some hostV)
    (hp : rowDict header row "port" = some portV)
    (hi : pyInt portV = .ok port)
    (hrow : row ≠ [])
    (hlast : ∀ r ∈ post, rowDict header r "service_name" ≠ some nameV) :
    dget table nameV = some ⟨hostV, port⟩ := by
  rw [loadRows_append header pre (row :: post) []] at hload
  rcases hpre : loadRows header pre [] with e | t₁ <;> rw [hpre] at hload
  · cases hload
  · simp only [loadRows, if_neg hrow,
      processRow_eq_ok hn hh hp hi] at hload
    rw [loadRows_frame header post _ table nameV hlast hload,
      dget_dinsert_self]

/-- Claim C1: for every `(name, host, port)` row present in the startup source
(the last row carrying that `service_name`, i.e. after duplicate resolution),
`GET /service/{name}` on a successfully loaded table answers status 200 with a
body holding exactly the field `host` (that row's host string) and the field
`port` (that row's port converted to an integer), and nothing else. -/
theorem C1_round_trip
    (header : List String) (pre post : List (List String)) (row : List String)
    (table : Table) (name host portStr : String) (port : Int)
    (hload : load_services (some (header :: (pre ++ row :: post))) = .ok table)
    (hn : rowDict header row "service_name" = some (some name))
    (hh : rowDict header row "host" = some (some host))
    (hp : rowDict header row "port" = some (some portStr))
    (hint : pyIntOfString? portStr = some port)
    (hlast : ∀ r ∈ post, rowDict header r "service_name" ≠ some (some name)) :
    get_service table name = (200, [("host", .str host), ("port", .int port)]) := by
  have hrow : row ≠ [] := by
    intro h0
    rw [h0] at hn
    exact rowDict_nil_ne header "service_name" name hn
  have hdg : dget table (some name) = some ⟨some host, port⟩ :=
    load_last_match header pre post row table (some name) (some host) (some portStr)
      port hload hn hh hp (by simp [pyInt, hint]) hrow hlast
  simp [get_service, hdg, jOfHost]

/-- Witness for C1 on the spec's concrete scenario, with one later unrelated
row. -/
theorem C1_round_trip_witness :
    load_services (some [["service_name", "host", "port"],
        ["auth_devs", "10.0.0.5", "8080"], ["x", "y", "1"]]) =
      .ok [(some "auth_devs", ⟨some "10.0.0.5", 8080⟩), (some "x", ⟨some "y", 1⟩)] ∧
    get_service [(some "auth_devs", ⟨some "10.0.0.5", 8080⟩), (some "x", ⟨some "y", 1⟩)]
        "auth_devs" =
      (200, [("host", .str "10.0.0.5"), ("port", .int 8080)]) :=
  ⟨by decide,
    C1_round_trip ["service_name", "host", "port"] [] [["x", "y", "1"]]
      ["auth_devs", "10.0.0.5", "8080"]
      [(some "auth_devs", ⟨some "10.0.0.5", 8080⟩), (some "x", ⟨some "y", 1⟩)]
      "auth_devs" "10.0.0.5" "8080" 8080
      (by decide) (by decide) (by decide) (by decide) (by decide) (by decide)⟩

/-- Claim C2: for a name absent from the loaded table, the lookup answers
status 404 — never 200 — with a body whose `error` field is the message
"Service not found". -/
theorem C2_unknown_key (table : Table) (name : String)
    (h : dget table (some name) = none) :
    get_service table name = (404, [("error", .str "Service not found")]) ∧
      (get_service table name).1 ≠ 200 := by
  constructor <;> simp [get_service, h]

/-- Witness for C2: the spec's `nonexistent_service` against a one-entry
table. -/
theorem C2_unknown_key_witness :
    get_service [(some "auth_devs", ⟨some "10.0.0.5", 8080⟩)] "nonexistent_service" =
      (404, [("error", .str "Service not found")]) ∧
    (get_service [(some "auth_devs", ⟨some "10.0.0.5", 8080⟩)] "nonexistent_service").1 ≠ 200 :=
  C2_unknown_key [(some "auth_devs", ⟨some "10.0.0.5", 8080⟩)] "nonexistent_service" (by decide)

/-- Claim C3: a missing source file does not abort the load — the handler
prints a human-readable diagnostic and the loader returns the empty table
without error, after which every lookup answers 404. -/
theorem C3_missing_source :
    load_services none = .ok [] ∧
    load_services_prints none = ["Error: CSV file 'services.csv' not found."] ∧
    ∀ name : String,
      get_service [] name = (404, [("error", .str "Service not found")]) := by
  refine ⟨rfl, rfl, fun name => ?_⟩
  simp [get_service, dget]

/-- Claim C4: when the source holds two rows for the same `service_name` with
different host/port values, the loaded table maps that name to exactly the
later row's host and port, and the table's keys are unique. -/
theorem C4_last_row_wins
    (header : List String) (pre mid post : List (List String)) (r₁ r₂ : List String)
    (table : Table) (name host₁ host₂ p₁ p₂ : String) (port₁ port₂ : Int)
    (hload : load_services (some (header :: (pre ++ r₁ :: mid ++ r₂ :: post))) = .ok table)
    (hn₁ : rowDict header r₁ "service_name" = some (some name))
    (hh₁ : rowDict header r₁ "host" = some (some host₁))
    (hp₁ : rowDict header r₁ "port" = some (some p₁))
    (hi₁ : pyIntOfString? p₁ = some port₁)
    (hn₂ : rowDict header r₂ "service_name" = some (some name))
    (hh₂ : rowDict header r₂ "host" = some (some host₂))
    (hp₂ : rowDict header r₂ "port" = some (some p₂))
    (hi₂ : pyIntOfString? p₂ = some port₂)
    (hdiff : host₁ ≠ host₂ ∨ port₁ ≠ port₂)
    (hlast : ∀ r ∈ post, rowDict header r "service_name" ≠ some (some name)) :
    dget table (some name) = some ⟨some host₂, port₂⟩ ∧
      (table.map Prod.fst).Nodup := by
  have hsplit : pre ++ r₁ :: mid ++ r₂ :: post = (pre ++ r₁ :: mid) ++ r₂ :: post := by
    simp
  rw [hsplit] at hload
  have hrow₂ : r₂ ≠ [] := by
    intro h0
    rw [h0] at hn₂
    exact rowDict_nil_ne header "service_name" name hn₂
  refine ⟨load_last_match header (pre ++ r₁ :: mid) post r₂ table (some name)
      (some host₂) (some p₂) port₂ hload hn₂ hh₂ hp₂ (by simp [pyInt, hi₂])
      hrow₂ hlast, ?_⟩
  exact loadRows_keys_nodup header _ [] table hload (by simp)

/-- Witness for C4: two rows named `auth_devs`; the later one's host and port
survive. -/
theorem C4_last_row_wins_witness :
    load_services (some [["service_name", "host", "port"],
        ["auth_devs", "10.0.0.5", "8080"], ["auth_devs", "10.0.0.9", "9090"]]) =
      .ok [(some "auth_devs", ⟨some "10.0.0.9", 9090⟩)] ∧
    dget [(some "auth_devs", ⟨some "10.0.0.9", 9090⟩)] (some "auth_devs") =
      some ⟨some "10.0.0.9", 9090⟩ ∧
    (([(some "auth_devs", ⟨some "10.0.0.9", 9090⟩)] : Table).map Prod.fst).Nodup :=
  ⟨by decide,
    C4_last_row_wins ["service_name", "host", "port"] [] [] []
      ["auth_devs", "10.0.0.5", "8080"] ["auth_devs", "10.0.0.9", "9090"]
      [(some "auth_devs", ⟨some "10.0.0.9", 9090⟩)]
      "auth_devs" "10.0.0.5" "10.0.0.9" "8080" "9090" 8080 9090
      (by decide) (by decide) (by decide) (by decide) (by decide) (by decide)
      (by decide) (by decide) (by decide) (.inl (by decide)) (by decide)⟩

/-- Counterexample to claim C5 as stated: `load_services` accepts a row whose
name and host are empty and whose port is 70000, outside [0, 65535]; the
resulting record violates the claimed validity invariant. -/
theorem C5_counterexample :
    load_services (some [["service_name", "host", "port"], ["", "", "70000"]]) =
      .ok [(some "", ⟨some "", 70000⟩)] ∧
    ¬ recordValid (some "") ⟨some "", 70000⟩ := by
  constructor
  · decide
  · decide

/-- Claim C5 amended: every record in a table produced by `load_services`
originates from a non-blank source row — its name and host are that row's
`service_name` and `host` dict values verbatim and its port is the Python
integer conversion of the row's `port` value; no non-emptiness or range
validation is applied. -/
theorem C5_record_provenance
    (header : List String) (rows : List (List String)) (table : Table)
    (hload : load_services (some (header :: rows)) = .ok table) :
    ∀ (k : PyKey) (svc : Service), (k, svc) ∈ table →
      ∃ row ∈ rows, row ≠ [] ∧ rowDict header row "service_name" = some k ∧
        rowDict header row "host" = some svc.host ∧
        ∃ pv, rowDict header row "port" = some pv ∧ pyInt pv = .ok svc.port := by
  intro k svc hmem
  rcases loadRows_provenance header rows [] table hload k svc hmem with hl | h
  · cases hl
  · exact h

/-- Witness for the amended C5: the out-of-range record traces back to its
source row. -/
theorem C5_record_provenance_witness :
    load_services (some [["service_name", "host", "port"], ["a", "h", "70000"]]) =
      .ok [(some "a", ⟨some "h", 70000⟩)] ∧
    (∃ row ∈ [["a", "h", "70000"]], row ≠ [] ∧
      rowDict ["service_name", "host", "port"] row "service_name" = some (some "a") ∧
      rowDict ["service_name", "host", "port"] row "host" = some (some "h") ∧
      ∃ pv, rowDict ["service_name", "host", "port"] row "port" = some pv ∧
        pyInt pv = .ok 70000) :=
  ⟨by decide,
    C5_record_provenance ["service_name", "host", "port"] [["a", "h", "70000"]]
      [(some "a", ⟨some "h", 70000⟩)] (by decide)
      (some "a") ⟨some "h", 70000⟩ (by decide)⟩

/-- Claim C6: a source row whose `port` value is present but does not convert
to an integer makes table construction fail — `load_services` propagates the
conversion exception instead of skipping the row or returning a table. -/
theorem C6_malformed_port
    (header : List String) (pre post : List (List String)) (row : List String)
    (s : String)
    (hp : rowDict header row "port" = some (some s))
    (hbad : pyIntOfString? s = none) :
    ∃ e, load_services (some (header :: (pre ++ row :: post))) = .error e := by
  have happ := loadRows_append header pre (row :: post) []
  rcases hpre : loadRows header pre [] with e | t₁ <;> rw [hpre] at happ
  · refine ⟨e, ?_⟩
    show loadRows header (pre ++ row :: post) [] = .error e
    rw [happ]
  · have hrow : row ≠ [] := by
      intro h0
      rw [h0] at hp
      exact rowDict_nil_ne header "port" s hp
    rcases hpr : processRow header row t₁ with e | t₂
    · refine ⟨e, ?_⟩
      show loadRows header (pre ++ row :: post) [] = .error e
      rw [happ]
      simp only [loadRows, if_neg hrow, hpr]
    · exfalso
      obtain ⟨nameV, hostV, portV, port, hn, hh, hp', hi, _⟩ := processRow_ok hpr
      rw [hp] at hp'
      have hps : portV = some s := (Option.some.inj hp').symm
      rw [hps] at hi
      simp [pyInt, hbad] at hi

/-- Witness for C6: the port field "abc" aborts the load. -/
theorem C6_malformed_port_witness :
    rowDict ["service_name", "host", "port"] ["a", "h", "abc"] "port" = some (some "abc") ∧
    pyIntOfString? "abc" = none ∧
    ∃ e, load_services (some [["service_name", "host", "port"], ["a", "h", "abc"]]) =
      .error e :=
  ⟨by decide, by decide,
    C6_malformed_port ["service_name", "host", "port"] [] [] ["a", "h", "abc"] "abc"
      (by decide) (by decide)⟩

/-- Claim C7: the lookup keys the table with the request's path segment
verbatim — a response is 200 exactly when that exact string is a key — so
"Auth_Devs" does not match a stored "auth_devs". -/
theorem C7_verbatim_key (svc : Service) :
    get_service [(some "auth_devs", svc)] "Auth_Devs" =
      (404, [("error", .str "Service not found")]) ∧
    ∀ (table : Table) (name : String),
      (get_service table name).1 = 200 ↔ (dget table (some name)).isSome := by
  constructor
  · have hd : dget [(some "auth_devs", svc)] (some "Auth_Devs") = none := by
      simp [dget]
    simp [get_service, hd]
  · intro table name
    rcases hd : dget table (some name) with _ | svc' <;> simp [get_service, hd]

/-- Claim C8: `load_services` reads each row only through the dict view keyed
by the header's column names, restricted to `service_name`, `host` and `port`:
two sources whose rows agree on those three keys — in particular a column
permutation, or sources differing in extra columns — load to the same table. -/
theorem C8_header_driven
    (h₁ h₂ : List String) (rows₁ rows₂ : List (List String))
    (hrel : List.Forall₂ (fun r₁ r₂ =>
        (r₁ = [] ↔ r₂ = []) ∧
        ∀ k ∈ (["service_name", "host", "port"] : List String),
          rowDict h₁ r₁ k = rowDict h₂ r₂ k) rows₁ rows₂) :
    load_services (some (h₁ :: rows₁)) = load_services (some (h₂ :: rows₂)) := by
  show loadRows h₁ rows₁ [] = loadRows h₂ rows₂ []
  suffices h : ∀ acc, loadRows h₁ rows₁ acc = loadRows h₂ rows₂ acc from h []
  induction hrel with
  | nil => intro acc; rfl
  | cons hr ht ih =>
    rename_i r₁ r₂ l₁ l₂
    intro acc
    obtain ⟨hempty, hkeys⟩ := hr
    by_cases hrow : r₁ = []
    · simp only [loadRows, if_pos hrow, if_pos (hempty.1 hrow)]
      exact ih acc
    · have hrow₂ : r₂ ≠ [] := fun h0 => hrow (hempty.2 h0)
      simp only [loadRows, if_neg hrow, if_neg hrow₂]
      have hpr : processRow h₁ r₁ acc = processRow h₂ r₂ acc := by
        unfold processRow
        rw [hkeys "service_name" (by simp), hkeys "host" (by simp),
          hkeys "port" (by simp)]
      rw [hpr]
      rcases hp2 : processRow h₂ r₂ acc with e | s
      · rfl
      · exact ih s

/-- Witness for C8: permuted columns with different extra columns give the
same table. -/
theorem C8_header_driven_witness :
    load_services (some [["service_name", "host", "port", "zone"],
        ["auth_devs", "10.0.0.5", "8080", "eu"]]) =
      load_services (some [["port", "service_name", "host"],
        ["8080", "auth_devs", "10.0.0.5"]]) :=
  C8_header_driven ["service_name", "host", "port", "zone"]
    ["port", "service_name", "host"]
    [["auth_devs", "10.0.0.5", "8080", "eu"]] [["8080", "auth_devs", "10.0.0.5"]]
    (List.Forall₂.cons ⟨by decide, by decide⟩ List.Forall₂.nil)

/-- Claim C9: handling lookups never modifies the table — after any sequence
of requests the server state is still the startup table, and every response
equals the lookup against that startup table. -/
theorem C9_lookup_pure (table : Table) (names : List String) :
    (handleRequests table names).2 = table ∧
    (handleRequests table names).1 = names.map (get_service table) := by
  induction names with
  | nil => exact ⟨rfl, rfl⟩
  | cons n rest ih =>
    simp only [handleRequests, get_service_step, List.map_cons]
    exact ⟨ih.1, by rw [ih.2]⟩

/-- Claim C10: a header lacking one of `service_name`, `host`, `port` makes
the load abort with a missing-key error at the first (non-blank) data row,
rather than degrade to an empty table; a header alone, with no data rows,
loads to the empty table without error. -/
theorem C10_missing_column
    (header : List String) (row : List String) (rest : List (List String))
    (hmiss : ¬("service_name" ∈ header ∧ "host" ∈ header ∧ "port" ∈ header))
    (hrow : row ≠ []) :
    load_services (some (header :: row :: rest)) = .error .keyError ∧
    ∀ header' : List String, load_services (some [header']) = .ok [] := by
  have hpr : ∀ acc : Table, processRow header row acc = .error .keyError := by
    intro acc
    rcases hn : rowDict header row "service_name" with _ | nameV
    · simp [processRow, hn]
    · have h1 : "service_name" ∈ header := by
        by_contra h1
        rw [(rowDict_eq_none_iff header row "service_name").2 h1] at hn
        cases hn
      rcases hh : rowDict header row "host" with _ | hostV
      · simp [processRow, hn, hh]
      · have h2 : "host" ∈ header := by
          by_contra h2
          rw [(rowDict_eq_none_iff header row "host").2 h2] at hh
          cases hh
        have h3 : "port" ∉ header := fun h3 => hmiss ⟨h1, h2, h3⟩
        simp [processRow, hn, hh, (rowDict_eq_none_iff header row "port").2 h3]
  constructor
  · show loadRows header (row :: rest) [] = .error .keyError
    simp only [loadRows, if_neg hrow, hpr]
  · intro header'
    rfl

/-- Witness for C10: a header without the `port` column. -/
theorem C10_missing_column_witness :
    load_services (some [["service_name", "host"], ["a", "h"]]) = .error .keyError ∧
    ∀ header' : List String, load_services (some [header']) = .ok [] :=
  C10_missing_column ["service_name", "host"] ["a", "h"] [] (by decide) (by decide)

end ServiceLocator
